import Mathlib

/-!
Verification of `uni_rc_lock` (src/src/lib.rs).

The crate defines two traits:

* `UniversalRcLock<'a, T>` — the lifetime-parameterized capability trait
  with associated guard types `OutRead`/`OutWrite` and operations
  `read`/`write`;
* `UniRcLock<T>` — the lifetime-erased convenience trait, implemented by a
  blanket rule for every `U : for<'a> UniversalRcLock<'a, T>` and declaring
  no items of its own;

and two impls of the capability trait:

* for `Rc<RefCell<T>>`: `read` delegates to `RefCell::borrow`, `write` to
  `RefCell::borrow_mut`;
* for `Arc<RwLock<T>>`: `read` delegates to `RwLock::read(..).expect(..)`,
  `write` to `RwLock::write(..).expect(..)` — poisoning panics.

The standard-library containers `RefCell` and `RwLock` are not part of the
crate; they are modelled here from their documented std semantics (which
the crate relies on and restates): a `RefCell` keeps a borrow flag
(`0` = unshared, `n > 0` = `n` shared borrows outstanding, negative =
mutably borrowed) and panics on conflicting borrows; an `RwLock` keeps a
reader count, a writer flag and a poison flag, blocks on conflicting
acquisitions and reports poisoning as an `Err` result, which the crate's
`expect` turns into a panic.

Mutation through a write guard and guard drops are modelled as explicit
state transformations on the container.
-/

namespace UniRcLockModel

/-- Model of std `RefCell<T>`: the borrow flag (`0` unshared, positive =
number of outstanding shared borrows, negative = mutably borrowed) and the
contained value. -/
structure RefCellT (T : Type) where
  borrowFlag : Int
  value : T
deriving DecidableEq

/-- `RefCell::new(v)`: fresh cell, no borrow outstanding. -/
def RefCellT.new {T : Type} (v : T) : RefCellT T := ⟨0, v⟩

/-- Outcome of a borrow acquisition on the single-threaded binding: either
the updated cell (the guard dereferences to `cell.value`), or a panic.
`RefCell` never blocks and returns no recoverable error value, so the type
has no other constructor. -/
inductive RcAcq (T : Type) where
  | ok (cell : RefCellT T)
  | panic
deriving DecidableEq

/-- std `RefCell::borrow`: panics iff the value is currently mutably
borrowed (negative flag); otherwise registers one more shared borrow. -/
def RefCellT.borrow {T : Type} (c : RefCellT T) : RcAcq T :=
  if c.borrowFlag < 0 then .panic
  else .ok { c with borrowFlag := c.borrowFlag + 1 }

/-- std `RefCell::borrow_mut`: panics iff any borrow (shared or mutable) is
outstanding (nonzero flag); otherwise registers the exclusive borrow. -/
def RefCellT.borrow_mut {T : Type} (c : RefCellT T) : RcAcq T :=
  if c.borrowFlag ≠ 0 then .panic
  else .ok { c with borrowFlag := -1 }

/-- Dropping a `Ref` guard: one shared borrow is released. -/
def RefCellT.dropRead {T : Type} (c : RefCellT T) : RefCellT T :=
  { c with borrowFlag := c.borrowFlag - 1 }

/-- Dropping a `RefMut` guard: the exclusive borrow is released. -/
def RefCellT.dropWrite {T : Type} (c : RefCellT T) : RefCellT T :=
  { c with borrowFlag := 0 }

/-- Mutating the contained value through a held `RefMut` guard (the guard
dereferences mutably to the value). -/
def RefCellT.guardModify {T : Type} (f : T → T) (c : RefCellT T) : RefCellT T :=
  { c with value := f c.value }

/-- Crate impl `UniversalRcLock for Rc<RefCell<T>>`, `fn read`:
`Rc::deref(self).borrow()` — pure delegation to `RefCell::borrow`. -/
def Rc.read {T : Type} (c : RefCellT T) : RcAcq T := c.borrow

/-- Crate impl `UniversalRcLock for Rc<RefCell<T>>`, `fn write`:
`Rc::deref(self).borrow_mut()` — pure delegation to `RefCell::borrow_mut`. -/
def Rc.write {T : Type} (c : RefCellT T) : RcAcq T := c.borrow_mut

/-- Model of std `RwLock<T>`: reader count, writer flag, poison flag and
the contained value. -/
structure RwLockT (T : Type) where
  readers : Nat
  writerHeld : Bool
  poisoned : Bool
  value : T
deriving DecidableEq

/-- `RwLock::new(v)`: fresh lock, free and unpoisoned. -/
def RwLockT.new {T : Type} (v : T) : RwLockT T := ⟨0, false, false, v⟩

/-- Outcome of an acquisition through the crate's `Arc<RwLock<T>>` impl:
the updated lock state (`ok`), a panic (`expect` on a poisoned lock), or a
thread-level block (the requested mode is unavailable; the call waits and
does not return within the modelled step). There is no error-carrying
constructor: the crate never returns a recoverable error value. -/
inductive ArcAcq (T : Type) where
  | ok (lock : RwLockT T)
  | panic
  | blocked
deriving DecidableEq

/-- Crate impl `UniversalRcLock for Arc<RwLock<T>>`, `fn read`:
`Arc::deref(self).read().expect("Read lock should not be poisoned")`.
std `RwLock::read` blocks while a writer holds the lock; once available it
returns `Err` iff the lock is poisoned, and `expect` turns that into a
panic. -/
def Arc.read {T : Type} (c : RwLockT T) : ArcAcq T :=
  if c.writerHeld then .blocked
  else if c.poisoned then .panic
  else .ok { c with readers := c.readers + 1 }

/-- Crate impl `UniversalRcLock for Arc<RwLock<T>>`, `fn write`:
`Arc::deref(self).write().expect("Write lock should not be poisoned")`.
std `RwLock::write` blocks while any reader or writer holds the lock; once
available it returns `Err` iff poisoned, and `expect` panics on that. -/
def Arc.write {T : Type} (c : RwLockT T) : ArcAcq T :=
  if c.writerHeld ∨ c.readers ≠ 0 then .blocked
  else if c.poisoned then .panic
  else .ok { c with writerHeld := true }

/-- Dropping an `RwLockReadGuard`: one reader is released. -/
def RwLockT.dropRead {T : Type} (c : RwLockT T) : RwLockT T :=
  { c with readers := c.readers - 1 }

/-- Dropping an `RwLockWriteGuard` (normal exit): the writer is released. -/
def RwLockT.dropWrite {T : Type} (c : RwLockT T) : RwLockT T :=
  { c with writerHeld := false }

/-- Mutating the contained value through a held `RwLockWriteGuard`. -/
def RwLockT.guardModify {T : Type} (f : T → T) (c : RwLockT T) : RwLockT T :=
  { c with value := f c.value }

/-- Whole write-then-read scenario for the `Rc<RefCell<T>>` binding,
starting from a fresh container: acquire the write guard, mutate through
it with `f`, drop it, acquire a read guard, return the value the read
guard dereferences to (`none` on any panic along the way). -/
def Rc.writeThenRead {T : Type} (v : T) (f : T → T) : Option T :=
  match Rc.write (RefCellT.new v) with
  | .panic => none
  | .ok c =>
    match Rc.read ((c.guardModify f).dropWrite) with
    | .panic => none
    | .ok c2 => some c2.value

/-- Whole write-then-read scenario for the `Arc<RwLock<T>>` binding,
starting from a fresh container. -/
def Arc.writeThenRead {T : Type} (v : T) (f : T → T) : Option T :=
  match Arc.write (RwLockT.new v) with
  | .panic => none
  | .blocked => none
  | .ok c =>
    match Arc.read ((c.guardModify f).dropWrite) with
    | .panic => none
    | .blocked => none
    | .ok c2 => some c2.value

/-- Signature of the capability trait `UniversalRcLock<'a, T>` at one
borrow lifetime: the two associated guard types `OutRead`/`OutWrite` and
the two acquisition operations on a handle of type `H`. -/
structure UniversalRcLockSig (H T : Type) where
  OutRead : Type
  OutWrite : Type
  read : H → OutRead
  write : H → OutWrite

/-- An implementation of the capability trait for every borrow lifetime
(`U : for<'a> UniversalRcLock<'a, T>`), lifetimes modelled as an arbitrary
index type `L`. -/
def UniversalRcLockFam (L H T : Type) := L → UniversalRcLockSig H T

/-- The ergonomic trait `UniRcLock<T>`: declared with an empty body, its
entire surface is the capability family its supertrait bound requires, so
an implementation of it is exactly such a family. -/
def UniRcLock (L H T : Type) := UniversalRcLockFam L H T

/-- The blanket rule `impl<T, U> UniRcLock<T> for U where
U: for<'a> UniversalRcLock<'a, T>`: every all-lifetime implementer of the
capability trait is, unconditionally, an implementer of the ergonomic
trait. -/
def UniRcLock.blanketImpl {L H T : Type} (s : UniversalRcLockFam L H T) :
    UniRcLock L H T := s

/-- Calling `read` through the ergonomic trait: the trait declares no
method of its own, so the call resolves to the capability trait's `read`
at the caller's borrow lifetime `a`. -/
def UniRcLock.read {L H T : Type} (u : UniRcLock L H T) (a : L) :
    H → (u a).OutRead := (u a).read

/-- Calling `write` through the ergonomic trait: resolves to the
capability trait's `write` at the caller's borrow lifetime `a`. -/
def UniRcLock.write {L H T : Type} (u : UniRcLock L H T) (a : L) :
    H → (u a).OutWrite := (u a).write

/-- An `Rc`/`Arc` handle: an index naming a shared allocation in a store.
(`Clone` is a supertrait bound of `UniversalRcLock`; `Rc::clone` and
`Arc::clone` increment a reference count and return a handle to the same
allocation.) -/
structure Handle where
  id : Nat
deriving DecidableEq

/-- Cloning a handle: the clone names the same allocation — shared
ownership, not a copy of the contained value. -/
def Handle.clone (h : Handle) : Handle := h

/-- Store of the `RefCell` allocations reachable through `Rc` handles. -/
structure RcStore (T : Type) where
  cells : Nat → RefCellT T

/-- Acquire a write guard through an `Rc` handle, mutate the contained
value with `f` through it, and drop the guard (`none` on panic). Only the
allocation the handle names is touched. -/
def RcStore.writeGuardedModify {T : Type} (st : RcStore T) (h : Handle)
    (f : T → T) : Option (RcStore T) :=
  match Rc.write (st.cells h.id) with
  | .panic => none
  | .ok c =>
    some ⟨fun i => if i = h.id then (c.guardModify f).dropWrite else st.cells i⟩

/-- Acquire a read guard through an `Rc` handle and return the value it
dereferences to (`none` on panic). -/
def RcStore.readValue {T : Type} (st : RcStore T) (h : Handle) : Option T :=
  match Rc.read (st.cells h.id) with
  | .panic => none
  | .ok c => some c.value

/-- Store of the `RwLock` allocations reachable through `Arc` handles. -/
structure ArcStore (T : Type) where
  locks : Nat → RwLockT T

/-- Acquire a write guard through an `Arc` handle, mutate the contained
value with `f` through it, and drop the guard (`none` on panic or block). -/
def ArcStore.writeGuardedModify {T : Type} (sa : ArcStore T) (h : Handle)
    (f : T → T) : Option (ArcStore T) :=
  match Arc.write (sa.locks h.id) with
  | .panic => none
  | .blocked => none
  | .ok c =>
    some ⟨fun i => if i = h.id then (c.guardModify f).dropWrite else sa.locks i⟩

/-- Acquire a read guard through an `Arc` handle and return the value it
dereferences to (`none` on panic or block). -/
def ArcStore.readValue {T : Type} (sa : ArcStore T) (h : Handle) : Option T :=
  match Arc.read (sa.locks h.id) with
  | .panic => none
  | .blocked => none
  | .ok c => some c.value

/-- Phase of one thread in the concurrent-increment scenario
(`h.state.write().val += 1` of the crate's `threads_test_arc` test): not
yet started; write lock acquired; contained value loaded through the write
guard into the thread (recorded in `localVal`); incremented value stored
back through the guard; guard dropped. -/
inductive Phase where
  | start
  | acquired
  | readDone (localVal : Int)
  | written
  | done
deriving DecidableEq

/-- Phases during which the thread holds the write lock. -/
def Phase.holdsLock : Phase → Bool
  | .acquired => true
  | .readDone _ => true
  | .written => true
  | _ => false

/-- Phases at which the thread's increment has already been stored back. -/
def Phase.counted : Phase → Bool
  | .written => true
  | .done => true
  | _ => false

/-- Global state of the `n`-thread concurrent-increment scenario: the
integer contained in the `Arc<RwLock<_>>`, the current exclusive holder of
the write lock (if any), and each thread's phase. -/
structure Sys (n : Nat) where
  value : Int
  owner : Option (Fin n)
  phase : Fin n → Phase

/-- Initial state: value `v`, lock free, every thread not yet started. -/
def Sys.init (n : Nat) (v : Int) : Sys n :=
  ⟨v, none, fun _ => .start⟩

/-- How many threads have already stored their increment back. -/
def Sys.countWritten {n : Nat} (s : Sys n) : Nat :=
  ∑ j, if (s.phase j).counted then 1 else 0

/-- One scheduler step of the concurrent-increment scenario. `write()` on
the `Arc<RwLock<_>>` blocks while the lock is held, so `acquire` fires
only when no thread owns the lock; the load, the store and the guard drop
of the critical section each require ownership and may interleave freely
with other threads' steps. -/
inductive Step {n : Nat} : Sys n → Sys n → Prop where
  | acquire (s : Sys n) (i : Fin n) :
      s.phase i = .start → s.owner = none →
      Step s { s with owner := some i,
                      phase := Function.update s.phase i .acquired }
  | readVal (s : Sys n) (i : Fin n) :
      s.phase i = .acquired → s.owner = some i →
      Step s { s with phase := Function.update s.phase i (.readDone s.value) }
  | writeVal (s : Sys n) (i : Fin n) (l : Int) :
      s.phase i = .readDone l → s.owner = some i →
      Step s { s with value := l + 1,
                      phase := Function.update s.phase i .written }
  | release (s : Sys n) (i : Fin n) :
      s.phase i = .written → s.owner = some i →
      Step s { s with owner := none,
                      phase := Function.update s.phase i .done }

/-- Inductive invariant of the scenario: the contained value counts the
stored increments; only the lock owner is inside the critical section (so
at most one thread is); and a loaded local value is still the current
contained value (no thread can have written in between). -/
def Sys.Inv {n : Nat} (v : Int) (s : Sys n) : Prop :=
  s.value = v + s.countWritten ∧
  (∀ i, (s.phase i).holdsLock = true → s.owner = some i) ∧
  (∀ i l, s.phase i = .readDone l → l = s.value)

end UniRcLockModel

namespace UniRcLockModel

/-- C2: for every value `v` and both bindings, constructing a container
wrapping `v` and immediately calling `read()` succeeds and yields a guard
dereferencing to a value equal to `v`. -/
theorem fresh_read_observes_initial {T : Type} (v : T) :
    Rc.read (RefCellT.new v) = .ok ⟨1, v⟩ ∧
    Arc.read (RwLockT.new v) = .ok ⟨1, false, false, v⟩ := by
  constructor <;> rfl

/-- C1: for every initial value `v`, every mutation `f` applied through the
write guard, and both bindings, the write–mutate–drop–read scenario
completes without panicking or blocking and the read guard observes the
mutated value `f v`. (The spec's concrete instance is `v = 42`,
`f = (+1)`, observed `43`.) -/
theorem write_then_read_consistency {T : Type} (v : T) (f : T → T) :
    Rc.writeThenRead v f = some (f v) ∧
    Arc.writeThenRead v f = some (f v) := by
  constructor <;> rfl

/-- C4: single-threaded binding. `write()` while any borrow (shared or
exclusive) is outstanding panics, and `read()` while an exclusive borrow is
outstanding panics. The result type `RcAcq` has no blocked and no
error-value constructor: the operation never blocks and never returns a
recoverable result. -/
theorem rc_conflicting_borrow_panics {T : Type} (c : RefCellT T) :
    (c.borrowFlag ≠ 0 → Rc.write c = .panic) ∧
    (c.borrowFlag < 0 → Rc.read c = .panic) := by
  refine ⟨fun h => ?_, fun h => ?_⟩
  · simp [Rc.write, RefCellT.borrow_mut, h]
  · simp [Rc.read, RefCellT.borrow, h]

/-- Witness for C4 at a concrete cell with an outstanding shared borrow
(flag `1`, so `write` panics) and one mutably borrowed (flag `-1`, so
`read` panics). -/
theorem rc_conflicting_borrow_panics_witness :
    Rc.write (⟨1, (0 : Int)⟩ : RefCellT Int) = .panic ∧
    Rc.read (⟨-1, (0 : Int)⟩ : RefCellT Int) = .panic :=
  ⟨(rc_conflicting_borrow_panics ⟨1, 0⟩).1 (by decide),
   (rc_conflicting_borrow_panics ⟨-1, 0⟩).2 (by decide)⟩

/-- C5: single-threaded binding. If no write borrow is outstanding
(nonnegative borrow flag), two successive `read()` acquisitions with both
guards kept live succeed — neither panics — and both guards observe the
same contained value. -/
theorem rc_two_reads_succeed {T : Type} (c : RefCellT T)
    (h : 0 ≤ c.borrowFlag) :
    ∃ c1 c2, Rc.read c = .ok c1 ∧ Rc.read c1 = .ok c2 ∧
      c1.value = c.value ∧ c2.value = c.value := by
  refine ⟨{ c with borrowFlag := c.borrowFlag + 1 },
    { c with borrowFlag := c.borrowFlag + 2 }, ?_, ?_, rfl, rfl⟩
  · simp [Rc.read, RefCellT.borrow, not_lt.mpr h]
  · have h1 : ¬ (c.borrowFlag + 1 < 0) := by omega
    simp [Rc.read, RefCellT.borrow, h1]
    omega

/-- Witness for C5 on a fresh cell containing `7`. -/
theorem rc_two_reads_succeed_witness :
    ∃ c1 c2, Rc.read (RefCellT.new (7 : Int)) = .ok c1 ∧
      Rc.read c1 = .ok c2 ∧
      c1.value = (RefCellT.new (7 : Int)).value ∧
      c2.value = (RefCellT.new (7 : Int)).value :=
  rc_two_reads_succeed (RefCellT.new 7) (by decide)

/-- C10: for both bindings, acquiring a read guard and dropping it leaves
the contained value unchanged — the acquisition itself mutates only the
borrow-tracking state, and dropping the guard restores that. -/
theorem read_then_drop_preserves_value {T : Type}
    (c : RefCellT T) (d : RwLockT T) (c' : RefCellT T) (d' : RwLockT T)
    (hc : Rc.read c = .ok c') (hd : Arc.read d = .ok d') :
    c'.value = c.value ∧ c'.dropRead = c ∧
    d'.value = d.value ∧ d'.dropRead = d := by
  unfold Rc.read RefCellT.borrow at hc
  unfold Arc.read at hd
  split at hc
  · cases hc
  · cases hc
    split at hd
    · cases hd
    · split at hd
      · cases hd
      · cases hd
        refine ⟨rfl, ?_, rfl, rfl⟩
        simp [RefCellT.dropRead]

/-- C6: multi-threaded binding. Once the lock is available, if the
synchronization primitive reports poisoning, both `read()` and `write()`
panic (the `expect` calls in the crate). `ArcAcq` has no error-carrying
constructor: no recoverable error value and no recovery path is exposed
through the abstraction. -/
theorem arc_poisoned_panics {T : Type} (d : RwLockT T)
    (hp : d.poisoned = true) :
    (d.writerHeld = false → Arc.read d = .panic) ∧
    (d.writerHeld = false → d.readers = 0 → Arc.write d = .panic) := by
  refine ⟨fun h => ?_, fun h h0 => ?_⟩
  · simp [Arc.read, h, hp]
  · simp [Arc.write, h, h0, hp]

/-- Witness for C6 at a free poisoned lock containing `0`. -/
theorem arc_poisoned_panics_witness :
    Arc.read (⟨0, false, true, (0 : Int)⟩ : RwLockT Int) = .panic ∧
    Arc.write (⟨0, false, true, (0 : Int)⟩ : RwLockT Int) = .panic :=
  ⟨(arc_poisoned_panics ⟨0, false, true, 0⟩ rfl).1 rfl,
   (arc_poisoned_panics ⟨0, false, true, 0⟩ rfl).2 rfl rfl⟩

/-- Witness for C10 on fresh containers holding `3`. -/
theorem read_then_drop_preserves_value_witness :
    (⟨1, (3 : Int)⟩ : RefCellT Int).value = (RefCellT.new (3 : Int)).value ∧
    (⟨1, (3 : Int)⟩ : RefCellT Int).dropRead = RefCellT.new (3 : Int) ∧
    (⟨1, false, false, (3 : Int)⟩ : RwLockT Int).value
      = (RwLockT.new (3 : Int)).value ∧
    (⟨1, false, false, (3 : Int)⟩ : RwLockT Int).dropRead
      = RwLockT.new (3 : Int) :=
  read_then_drop_preserves_value (RefCellT.new 3) (RwLockT.new 3)
    ⟨1, 3⟩ ⟨1, false, false, 3⟩ rfl rfl

/-- C3: every all-lifetime implementer of the capability trait implements
the ergonomic trait through the blanket rule, the resulting implementation
IS the capability implementation, and `read`/`write` called through the
ergonomic trait are definitionally the capability trait's `read`/`write`
at the caller's lifetime — the layer adds no operation and no runtime
behavior. -/
theorem uniRcLock_blanket_forwards {L H T : Type}
    (s : UniversalRcLockFam L H T) (a : L) :
    UniRcLock.blanketImpl s = s ∧
    (UniRcLock.blanketImpl s).read a = (s a).read ∧
    (UniRcLock.blanketImpl s).write a = (s a).write :=
  ⟨rfl, rfl, rfl⟩

/-- C7: for both bindings, `Handle.clone` returns a handle naming the same
allocation, and a mutation performed through one clone's write guard is
observed by a subsequent read guard acquired through the original handle.
(Hypotheses: no borrow outstanding on the `Rc` container; the `RwLock` is
free and unpoisoned.) -/
theorem clone_shares_container {T : Type} (st : RcStore T) (sa : ArcStore T)
    (h : Handle) (f : T → T)
    (hrc : (st.cells h.id).borrowFlag = 0)
    (ha1 : (sa.locks h.id).writerHeld = false)
    (ha2 : (sa.locks h.id).readers = 0)
    (ha3 : (sa.locks h.id).poisoned = false) :
    h.clone = h ∧
    (∃ st', st.writeGuardedModify h.clone f = some st' ∧
      st'.readValue h = some (f (st.cells h.id).value)) ∧
    (∃ sa', sa.writeGuardedModify h.clone f = some sa' ∧
      sa'.readValue h = some (f (sa.locks h.id).value)) := by
  refine ⟨rfl, ?_, ?_⟩
  · refine ⟨⟨fun i => if i = h.id
        then ⟨0, f (st.cells h.id).value⟩ else st.cells i⟩, ?_, ?_⟩
    · simp [RcStore.writeGuardedModify, Handle.clone, Rc.write,
        RefCellT.borrow_mut, hrc, RefCellT.guardModify, RefCellT.dropWrite]
    · simp [RcStore.readValue, Rc.read, RefCellT.borrow]
  · refine ⟨⟨fun i => if i = h.id
        then ⟨0, false, false, f (sa.locks h.id).value⟩ else sa.locks i⟩, ?_, ?_⟩
    · simp [ArcStore.writeGuardedModify, Handle.clone, Arc.write,
        ha1, ha2, ha3, RwLockT.guardModify, RwLockT.dropWrite]
    · simp [ArcStore.readValue, Arc.read]

/-- Witness for C7: stores every allocation of which holds `10`, handle
`0`, mutation `+1`; the written value `11` is read back through the
original handle under both bindings. -/
theorem clone_shares_container_witness :
    Handle.clone ⟨0⟩ = (⟨0⟩ : Handle) ∧
    (∃ st', RcStore.writeGuardedModify ⟨fun _ => RefCellT.new (10 : Int)⟩
        (Handle.clone ⟨0⟩) (fun x => x + 1) = some st' ∧
      st'.readValue ⟨0⟩
        = some ((fun x => x + 1)
            ((RefCellT.new (10 : Int)).value))) ∧
    (∃ sa', ArcStore.writeGuardedModify ⟨fun _ => RwLockT.new (10 : Int)⟩
        (Handle.clone ⟨0⟩) (fun x => x + 1) = some sa' ∧
      sa'.readValue ⟨0⟩
        = some ((fun x => x + 1)
            ((RwLockT.new (10 : Int)).value))) :=
  clone_shares_container ⟨fun _ => RefCellT.new 10⟩ ⟨fun _ => RwLockT.new 10⟩
    ⟨0⟩ (fun x => x + 1) rfl rfl rfl rfl

/-- Splitting the stored-increment count at one thread: updating thread
`i`'s phase replaces its contribution to the count. -/
theorem countWritten_update {n : Nat} (ph : Fin n → Phase) (i : Fin n)
    (p : Phase) :
    (∑ j, if (Function.update ph i p j).counted then 1 else 0)
      + (if (ph i).counted then 1 else 0)
    = (∑ j, if (ph j).counted then (1 : ℕ) else 0)
      + (if p.counted then 1 else 0) := by
  have hfe : ∀ j, (if (Function.update ph i p j).counted then (1 : ℕ) else 0)
      = Function.update (fun j => if (ph j).counted then (1 : ℕ) else 0) i
          (if p.counted then 1 else 0) j := by
    intro j
    rcases eq_or_ne j i with rfl | hne
    · rw [Function.update_same, Function.update_same]
    · rw [Function.update_noteq hne, Function.update_noteq hne]
  rw [Finset.sum_congr rfl fun j _ => hfe j,
    Finset.sum_update_of_mem (Finset.mem_univ i),
    Finset.sdiff_singleton_eq_erase,
    ← Finset.add_sum_erase Finset.univ
      (fun j => if (ph j).counted then (1 : ℕ) else 0) (Finset.mem_univ i)]
  omega

/-- The initial state of the concurrent-increment scenario satisfies the
inductive invariant. -/
theorem init_inv (n : Nat) (v : Int) : (Sys.init n v).Inv v := by
  refine ⟨?_, fun i hi => ?_, fun i l hl => ?_⟩
  · simp [Sys.init, Sys.countWritten, Phase.counted]
  · simp [Sys.init, Phase.holdsLock] at hi
  · simp [Sys.init] at hl

/-- Updating a thread's phase from a not-yet-stored phase to another
not-yet-stored phase leaves the stored-increment count unchanged. -/
theorem countWritten_update_eq {n : Nat} (ph : Fin n → Phase) (i : Fin n)
    (p : Phase) (h1 : (ph i).counted = false) (h2 : p.counted = false) :
    (∑ j, if (Function.update ph i p j).counted then 1 else 0)
    = ∑ j, if (ph j).counted then (1 : ℕ) else 0 := by
  have h := countWritten_update ph i p
  rw [h1, h2] at h
  simpa using h

/-- Updating a thread's phase from a not-yet-stored phase to a stored
phase raises the stored-increment count by one. -/
theorem countWritten_update_succ {n : Nat} (ph : Fin n → Phase) (i : Fin n)
    (p : Phase) (h1 : (ph i).counted = false) (h2 : p.counted = true) :
    (∑ j, if (Function.update ph i p j).counted then 1 else 0)
    = (∑ j, if (ph j).counted then (1 : ℕ) else 0) + 1 := by
  have h := countWritten_update ph i p
  rw [h1, h2] at h
  simpa using h

/-- Updating a thread's phase from a stored phase to another stored phase
leaves the stored-increment count unchanged. -/
theorem countWritten_update_keep {n : Nat} (ph : Fin n → Phase) (i : Fin n)
    (p : Phase) (h1 : (ph i).counted = true) (h2 : p.counted = true) :
    (∑ j, if (Function.update ph i p j).counted then 1 else 0)
    = ∑ j, if (ph j).counted then (1 : ℕ) else 0 := by
  have h := countWritten_update ph i p
  rw [h1, h2] at h
  simpa using h

/-- Each scheduler step preserves the inductive invariant. -/
theorem step_preserves_inv {n : Nat} {v : Int} {s s' : Sys n}
    (hinv : s.Inv v) (hstep : Step s s') : s'.Inv v := by
  obtain ⟨hval, hcs, hrd⟩ := hinv
  cases hstep with
  | acquire i hph how =>
    refine ⟨?_, fun j hj => ?_, fun j l hl => ?_⟩
    · show s.value
        = v + ((∑ j, if (Function.update s.phase i Phase.acquired j).counted
            then 1 else 0 : ℕ) : ℤ)
      rw [countWritten_update_eq s.phase i Phase.acquired (by rw [hph]; rfl) rfl]
      exact hval
    · replace hj : (Function.update s.phase i Phase.acquired j).holdsLock
          = true := hj
      rcases eq_or_ne j i with rfl | hne
      · rfl
      · rw [Function.update_noteq hne] at hj
        have hcontra := hcs j hj
        rw [how] at hcontra
        exact absurd hcontra (by simp)
    · replace hl : Function.update s.phase i Phase.acquired j
          = Phase.readDone l := hl
      rcases eq_or_ne j i with rfl | hne
      · rw [Function.update_same] at hl
        simp at hl
      · rw [Function.update_noteq hne] at hl
        show l = s.value
        exact hrd j l hl
  | readVal i hph how =>
    refine ⟨?_, fun j hj => ?_, fun j l hl => ?_⟩
    · show s.value
        = v + ((∑ j, if (Function.update s.phase i
            (Phase.readDone s.value) j).counted then 1 else 0 : ℕ) : ℤ)
      rw [countWritten_update_eq s.phase i (Phase.readDone s.value)
        (by rw [hph]; rfl) rfl]
      exact hval
    · replace hj : (Function.update s.phase i
          (Phase.readDone s.value) j).holdsLock = true := hj
      rcases eq_or_ne j i with rfl | hne
      · exact how
      · rw [Function.update_noteq hne] at hj
        exact hcs j hj
    · replace hl : Function.update s.phase i (Phase.readDone s.value) j
          = Phase.readDone l := hl
      rcases eq_or_ne j i with rfl | hne
      · rw [Function.update_same] at hl
        injection hl with h2
        exact h2.symm
      · rw [Function.update_noteq hne] at hl
        show l = s.value
        exact hrd j l hl
  | writeVal i l hph how =>
    refine ⟨?_, fun j hj => ?_, fun j l' hl' => ?_⟩
    · show l + 1
        = v + ((∑ j, if (Function.update s.phase i Phase.written j).counted
            then 1 else 0 : ℕ) : ℤ)
      rw [countWritten_update_succ s.phase i Phase.written (by rw [hph]; rfl) rfl]
      have hlv : l = s.value := hrd i l hph
      unfold Sys.countWritten at hval
      omega
    · replace hj : (Function.update s.phase i Phase.written j).holdsLock
          = true := hj
      rcases eq_or_ne j i with rfl | hne
      · exact how
      · rw [Function.update_noteq hne] at hj
        exact hcs j hj
    · replace hl' : Function.update s.phase i Phase.written j
          = Phase.readDone l' := hl'
      rcases eq_or_ne j i with rfl | hne
      · rw [Function.update_same] at hl'
        simp at hl'
      · rw [Function.update_noteq hne] at hl'
        have hj : (s.phase j).holdsLock = true := by rw [hl']; rfl
        have h2 := hcs j hj
        rw [how] at h2
        exact absurd (Option.some.inj h2).symm hne
  | release i hph how =>
    refine ⟨?_, fun j hj => ?_, fun j l hl => ?_⟩
    · show s.value
        = v + ((∑ j, if (Function.update s.phase i Phase.done j).counted
            then 1 else 0 : ℕ) : ℤ)
      rw [countWritten_update_keep s.phase i Phase.done (by rw [hph]; rfl) rfl]
      exact hval
    · replace hj : (Function.update s.phase i Phase.done j).holdsLock
          = true := hj
      rcases eq_or_ne j i with rfl | hne
      · rw [Function.update_same] at hj
        simp [Phase.holdsLock] at hj
      · rw [Function.update_noteq hne] at hj
        have h2 := hcs j hj
        rw [how] at h2
        exact absurd (Option.some.inj h2).symm hne
    · replace hl : Function.update s.phase i Phase.done j
          = Phase.readDone l := hl
      rcases eq_or_ne j i with rfl | hne
      · rw [Function.update_same] at hl
        simp at hl
      · rw [Function.update_noteq hne] at hl
        show l = s.value
        exact hrd j l hl

/-- Every state reachable from the initial state satisfies the inductive
invariant. -/
theorem reachable_inv {n : Nat} {v : Int} {s : Sys n}
    (h : Relation.ReflTransGen Step (Sys.init n v) s) : s.Inv v := by
  induction h with
  | refl => exact init_inv n v
  | tail _ hstep ih => exact step_preserves_inv ih hstep

/-- C8: multi-threaded binding. In every interleaving of `n` threads each
incrementing the contained integer once under its own write guard, any
state in which all threads have finished holds the initial value plus `n`
— no update is lost, for every possible schedule. -/
theorem arc_concurrent_increments_no_lost_updates {n : Nat} {v : Int}
    {s : Sys n} (h : Relation.ReflTransGen Step (Sys.init n v) s)
    (hdone : ∀ i, s.phase i = Phase.done) : s.value = v + n := by
  have hinv := reachable_inv h
  have hcount : s.countWritten = n := by
    unfold Sys.countWritten
    simp [hdone, Phase.counted]
  rw [hinv.1, hcount]

/-- Witness for C8: one thread starting from value `0`; the schedule
acquire–load–store–release reaches the all-done state, which the theorem
evaluates to `0 + 1`. -/
theorem arc_concurrent_increments_witness :
    ∃ s : Sys 1, Relation.ReflTransGen Step (Sys.init 1 0) s ∧
      (∀ i, s.phase i = Phase.done) ∧ s.value = 0 + ((1 : Nat) : Int) := by
  have h1 : Step (Sys.init 1 0)
      (⟨0, some 0, Function.update (fun _ => Phase.start) 0 Phase.acquired⟩ :
        Sys 1) :=
    Step.acquire _ 0 rfl rfl
  have h2 : Step
      (⟨0, some 0, Function.update (fun _ => Phase.start) 0 Phase.acquired⟩ :
        Sys 1)
      (⟨0, some 0, Function.update
          (Function.update (fun _ => Phase.start) 0 Phase.acquired) 0
          (Phase.readDone 0)⟩ : Sys 1) :=
    Step.readVal _ 0 rfl rfl
  have h3 : Step
      (⟨0, some 0, Function.update
          (Function.update (fun _ => Phase.start) 0 Phase.acquired) 0
          (Phase.readDone 0)⟩ : Sys 1)
      (⟨1, some 0, Function.update (Function.update
          (Function.update (fun _ => Phase.start) 0 Phase.acquired) 0
          (Phase.readDone 0)) 0 Phase.written⟩ : Sys 1) :=
    Step.writeVal _ 0 0 rfl rfl
  have h4 : Step
      (⟨1, some 0, Function.update (Function.update
          (Function.update (fun _ => Phase.start) 0 Phase.acquired) 0
          (Phase.readDone 0)) 0 Phase.written⟩ : Sys 1)
      (⟨1, none, Function.update (Function.update (Function.update
          (Function.update (fun _ => Phase.start) 0 Phase.acquired) 0
          (Phase.readDone 0)) 0 Phase.written) 0 Phase.done⟩ : Sys 1) :=
    Step.release _ 0 rfl rfl
  have htrace : Relation.ReflTransGen Step (Sys.init 1 0)
      (⟨1, none, Function.update (Function.update (Function.update
          (Function.update (fun _ => Phase.start) 0 Phase.acquired) 0
          (Phase.readDone 0)) 0 Phase.written) 0 Phase.done⟩ : Sys 1) :=
    Relation.ReflTransGen.head h1 (Relation.ReflTransGen.head h2
      (Relation.ReflTransGen.head h3 (Relation.ReflTransGen.head h4
        Relation.ReflTransGen.refl)))
  have hdone : ∀ i : Fin 1,
      ((⟨1, none, Function.update (Function.update (Function.update
          (Function.update (fun _ => Phase.start) 0 Phase.acquired) 0
          (Phase.readDone 0)) 0 Phase.written) 0 Phase.done⟩ : Sys 1)).phase i
        = Phase.done := by decide
  exact ⟨_, htrace, hdone,
    arc_concurrent_increments_no_lost_updates htrace hdone⟩

end UniRcLockModel
